import Mathlib

/-!
Verification of the lane-flow kanban board core
(`src/components/KanbanBoard.tsx` and its near-duplicate variants; the
drag-drop controller is embedded from the most complete variant, the one
that resolves the drop target from the droppable's registered
`{column, swimLane}` data and short-circuits same-cell drops).

The TypeScript data model and functions are shallowly embedded below:
pure functions become Lean functions, the JS `Set` state becomes
`Finset String`, CSS pixel arithmetic becomes exact `ℚ` arithmetic, and
the drag-end handler — whose only effects are invoking the supplied
callbacks — becomes a function returning the list of callback
invocations, in an `Except` monad because a user-supplied hook may
throw and the handler has no try/catch.
-/

namespace LaneFlow

/-- Priority enum of `KanbanItem.priority`: `'low' | 'medium' | 'high'`. -/
inductive Priority where
  | low
  | medium
  | high
deriving DecidableEq, Repr

/-- Structure `KanbanItem` from the source: `{id, title, description?, assignee?,
priority?, swimLane, column}`. -/
structure KanbanItem where
  id : String
  title : String
  description : Option String := none
  assignee : Option String := none
  priority : Option Priority := none
  swimLane : String
  column : String
deriving DecidableEq, Repr

/-- Structure `KanbanColumn` from the source: `{id, title, color?}`. -/
structure KanbanColumn where
  id : String
  title : String
  color : Option String := none
deriving DecidableEq, Repr

/-- Structure `KanbanSwimLane` from the source: `{id, title, color?}`. -/
structure KanbanSwimLane where
  id : String
  title : String
  color : Option String := none
deriving DecidableEq, Repr

/-- Source `getItemsForCell(columnId, swimLaneId)`:
`items.filter(item => item.column === columnId && item.swimLane === swimLaneId)`.
The captured `items` prop is passed explicitly. -/
def getItemsForCell (items : List KanbanItem) (columnId swimLaneId : String) :
    List KanbanItem :=
  items.filter (fun item => item.column == columnId && item.swimLane == swimLaneId)

/-- Source `findItemById(id)`: `items.find(item => item.id === id)`. -/
def findItemById (items : List KanbanItem) (id : String) : Option KanbanItem :=
  items.find? (fun item => item.id == id)

/-- Source `toggleColumn(columnId)`: copies the `collapsedColumns` set, deletes the
id if present, adds it otherwise, and stores the copy.  The stored set is
the return value. -/
def toggleColumn (columnId : String) (collapsedColumns : Finset String) :
    Finset String :=
  if columnId ∈ collapsedColumns then collapsedColumns.erase columnId
  else insert columnId collapsedColumns

/-- Source `toggleSwimLane(swimLaneId)`: same shape as `toggleColumn`, acting on the
`collapsedSwimLanes` set. -/
def toggleSwimLane (swimLaneId : String) (collapsedSwimLanes : Finset String) :
    Finset String :=
  if swimLaneId ∈ collapsedSwimLanes then collapsedSwimLanes.erase swimLaneId
  else insert swimLaneId collapsedSwimLanes

/-! ## Column width computation

From the layout block of the most complete variant:

```
const swimLaneWidth = 200;
const collapsedColumnWidth = 64;
const expandedColumns = columns.filter(col => !collapsedColumns.has(col.id));
const collapsedColumnCount = columns.length - expandedColumns.length;
const availableWidth = `calc(100% - ${swimLaneWidth}px - ${collapsedColumnCount * collapsedColumnWidth}px)`;
const expandedColumnWidth = expandedColumns.length > 0 ? `calc(${availableWidth} / ${expandedColumns.length})` : '0px';
const getColumnWidth = (columnId) =>
  collapsedColumns.has(columnId) ? `${collapsedColumnWidth}px` : expandedColumnWidth;
```

The CSS `calc` strings are embedded as exact rational arithmetic, with
`totalWidth : ℚ` standing for the container's `100%` in pixels. -/

/-- Source constant `swimLaneWidth = 200`. -/
def swimLaneWidth : ℚ := 200

/-- Source constant `collapsedColumnWidth = 64`. -/
def collapsedColumnWidth : ℚ := 64

/-- Source `expandedColumns = columns.filter(col => !collapsedColumns.has(col.id))`. -/
def expandedColumns (columns : List KanbanColumn) (collapsedColumns : Finset String) :
    List KanbanColumn :=
  columns.filter (fun col => !(decide (col.id ∈ collapsedColumns)))

/-- Source `collapsedColumnCount = columns.length - expandedColumns.length`. -/
def collapsedColumnCount (columns : List KanbanColumn) (collapsedColumns : Finset String) :
    ℕ :=
  columns.length - (expandedColumns columns collapsedColumns).length

/-- Source `availableWidth = 100% - swimLaneWidth - collapsedColumnCount * collapsedColumnWidth`. -/
def availableWidth (totalWidth : ℚ) (columns : List KanbanColumn)
    (collapsedColumns : Finset String) : ℚ :=
  totalWidth - swimLaneWidth -
    (collapsedColumnCount columns collapsedColumns : ℚ) * collapsedColumnWidth

/-- Source `expandedColumnWidth = expandedColumns.length > 0 ? availableWidth / expandedColumns.length : 0`. -/
def expandedColumnWidth (totalWidth : ℚ) (columns : List KanbanColumn)
    (collapsedColumns : Finset String) : ℚ :=
  if 0 < (expandedColumns columns collapsedColumns).length then
    availableWidth totalWidth columns collapsedColumns /
      ((expandedColumns columns collapsedColumns).length : ℚ)
  else 0

/-- Source `getColumnWidth(columnId)`. -/
def getColumnWidth (totalWidth : ℚ) (columns : List KanbanColumn)
    (collapsedColumns : Finset String) (columnId : String) : ℚ :=
  if columnId ∈ collapsedColumns then collapsedColumnWidth
  else expandedColumnWidth totalWidth columns collapsedColumns

/-- The total width of the rendered column row: the board renders one box of
width `getColumnWidth(column.id)` per entry of `columns` (`columns.map(...)`
in the header and in every swim-lane row). -/
def totalColumnsWidth (totalWidth : ℚ) (columns : List KanbanColumn)
    (collapsedColumns : Finset String) : ℚ :=
  (columns.map (fun col => getColumnWidth totalWidth columns collapsedColumns col.id)).sum

/-! ## Drag-drop controller

`handleDragEnd(event)` from the most complete variant.  The relevant
inputs are the dragged item's id (`active.id`), the drop target's
registered data (`over.data.current`, holding the droppable's
`{column, swimLane}` — `over` is `null` when the pointer is released
outside every droppable, and either field may be absent), the `items`
prop and the three optional callbacks.  The handler's only effects are
invocations of the callbacks; it never calls a state setter and never
mutates `items`.  Each callback's invocations are collected in a list
(in the order made).  A user-supplied `onBeforeDrop` hook may throw and
the handler has no try/catch, so the hook is embedded as returning
`Except String Bool` and the handler as returning
`Except String DragEndResult`: `Except.error` is an exception
propagating out of the handler. -/

/-- Structure `BeforeDropEvent` from the source. -/
structure BeforeDropEvent where
  itemId : String
  sourceColumn : String
  sourceSwimLane : String
  targetColumn : String
  targetSwimLane : String
  canDrop : Bool
deriving DecidableEq, Repr

/-- Structure `DropEvent` from the source. -/
structure DropEvent where
  itemId : String
  sourceColumn : String
  sourceSwimLane : String
  targetColumn : String
  targetSwimLane : String
  item : KanbanItem
deriving DecidableEq, Repr

/-- The drop target's registered data, `over.data.current`: the droppable
registers `{column: columnId, swimLane: swimLaneId}`; a field read with `?.`
may be absent. -/
structure OverData where
  column : Option String := none
  swimLane : Option String := none
deriving DecidableEq, Repr

/-- JavaScript truthiness of `overData?.column`: falsy when the field is
absent (`undefined`) and when it is the empty string. -/
def strTruthy : Option String → Bool
  | none => false
  | some s => !(s == "")

/-- The callback invocations performed by one `handleDragEnd` run: the
argument of each call to `onBeforeDrop`, `onDrop` and `onItemMove`, in
order.  The source calls each at most once per run. -/
structure DragEndResult where
  beforeDropEvents : List BeforeDropEvent := []
  dropEvents : List DropEvent := []
  itemMoveEvents : List (String × String × String) := []
deriving DecidableEq, Repr

/-- Source `handleDragEnd`, embedded line by line from the source:
`if (!over) return` · `findItemById(active.id)`, `if (!draggedItem) return` ·
read `targetColumn`/`targetSwimLane` from `over.data.current`,
`if (!targetColumn || !targetSwimLane) return` ·
`if (same column && same swimLane) return` · build `beforeDropEvent` ·
`canDrop = onBeforeDrop ? onBeforeDrop(beforeDropEvent) : true` (a throwing
hook propagates: there is no try/catch) · `if (!canDrop) return` · build
`dropEvent` · `if (onDrop) onDrop(dropEvent)` ·
`if (onItemMove) onItemMove(id, targetColumn, targetSwimLane)`. -/
def handleDragEnd (items : List KanbanItem)
    (onBeforeDrop : Option (BeforeDropEvent → Except String Bool))
    (onDropSupplied onItemMoveSupplied : Bool)
    (activeId : String) (over : Option OverData) :
    Except String DragEndResult :=
  match over with
  | none => .ok {}
  | some overData =>
    match findItemById items activeId with
    | none => .ok {}
    | some draggedItem =>
      if !(strTruthy overData.column) || !(strTruthy overData.swimLane) then .ok {}
      else
        let targetColumn := overData.column.getD ""
        let targetSwimLane := overData.swimLane.getD ""
        if draggedItem.column == targetColumn && draggedItem.swimLane == targetSwimLane then
          .ok {}
        else
          let beforeDropEvent : BeforeDropEvent :=
            { itemId := draggedItem.id
              sourceColumn := draggedItem.column
              sourceSwimLane := draggedItem.swimLane
              targetColumn := targetColumn
              targetSwimLane := targetSwimLane
              canDrop := true }
          match onBeforeDrop with
          | some hook =>
            match hook beforeDropEvent with
            | .error e => .error e
            | .ok canDrop =>
              if !canDrop then .ok { beforeDropEvents := [beforeDropEvent] }
              else
                .ok { beforeDropEvents := [beforeDropEvent]
                      dropEvents :=
                        if onDropSupplied then
                          [{ itemId := draggedItem.id
                             sourceColumn := draggedItem.column
                             sourceSwimLane := draggedItem.swimLane
                             targetColumn := targetColumn
                             targetSwimLane := targetSwimLane
                             item := draggedItem }]
                        else []
                      itemMoveEvents :=
                        if onItemMoveSupplied then
                          [(draggedItem.id, targetColumn, targetSwimLane)]
                        else [] }
          | none =>
            .ok { dropEvents :=
                    if onDropSupplied then
                      [{ itemId := draggedItem.id
                         sourceColumn := draggedItem.column
                         sourceSwimLane := draggedItem.swimLane
                         targetColumn := targetColumn
                         targetSwimLane := targetSwimLane
                         item := draggedItem }]
                    else []
                  itemMoveEvents :=
                    if onItemMoveSupplied then
                      [(draggedItem.id, targetColumn, targetSwimLane)]
                    else [] }

/-- The component state the drag path could touch: the two collapse sets.
(`items` is a prop owned by the caller, not component state.) -/
structure BoardState where
  collapsedColumns : Finset String := {}
  collapsedSwimLanes : Finset String := {}
deriving DecidableEq

/-- One full drag-end step: the state after the handler together with the
callback invocations.  `handleDragEnd` contains no call to
`setCollapsedColumns`/`setCollapsedSwimLanes`, so the state passes through
unchanged on every path. -/
def handleDragEndStep (st : BoardState) (items : List KanbanItem)
    (onBeforeDrop : Option (BeforeDropEvent → Except String Bool))
    (onDropSupplied onItemMoveSupplied : Bool)
    (activeId : String) (over : Option OverData) :
    Except String (BoardState × DragEndResult) :=
  (handleDragEnd items onBeforeDrop onDropSupplied onItemMoveSupplied activeId over).map
    (fun r => (st, r))

/-! ## Virtualized cell window -/

/-- Modelled from the spec: the fixed-size windowing computation of the
virtualizer.  `VirtualizedItemList` delegates it to the external
`@tanstack/react-virtual` library (`useVirtualizer({count: N,
estimateSize: () => 120, overscan: 5})`), whose code is not part of this
repository; the spec defines the contract: the materialized indices are
the `i ∈ [0, N)` whose cumulative offset `i·E` intersects
`[scrollTop − K·E, scrollTop + H + K·E]`. -/
def materializedIndices (N H E K scrollTop : ℕ) : Finset ℕ :=
  (Finset.range N).filter (fun i =>
    (scrollTop : ℤ) - (K : ℤ) * (E : ℤ) ≤ (i : ℤ) * (E : ℤ) ∧
    (i : ℤ) * (E : ℤ) ≤ (scrollTop : ℤ) + (H : ℤ) + (K : ℤ) * (E : ℤ))

/-- Modelled from the spec: the total scrollable extent reported in
fixed-size mode (`virtualizer.getTotalSize()` of the external library),
`N·E`. -/
def totalScrollSize (N E : ℕ) : ℕ := N * E

/-- Ceiling division `⌈H/E⌉` on naturals, used to state the
virtualization bound. -/
def ceilDiv (H E : ℕ) : ℕ := (H + E - 1) / E

/-- The item-size estimate the source passes to the virtualizer:
`estimateSize: () => 120`. -/
def estimateSize : ℕ := 120

/-- The overscan the source passes to the virtualizer: `overscan: 5`. -/
def overscan : ℕ := 5

/-! ## Concrete fixture used by the witnesses -/

/-- A concrete item sitting in cell `(todo, frontend)`. -/
def itemA : KanbanItem :=
  { id := "a1", title := "Task A", swimLane := "frontend", column := "todo" }

/-- A concrete item sitting in cell `(done, backend)`. -/
def itemB : KanbanItem :=
  { id := "b1", title := "Task B", swimLane := "backend", column := "done" }

/-- A concrete item whose `column` references no existing column. -/
def itemDangling : KanbanItem :=
  { id := "d1", title := "Task D", swimLane := "frontend", column := "ghost" }

/-- A concrete column list. -/
def demoColumns : List KanbanColumn :=
  [{ id := "todo", title := "To Do" }, { id := "done", title := "Done" }]

/-- A concrete swim-lane list. -/
def demoSwimLanes : List KanbanSwimLane :=
  [{ id := "frontend", title := "Frontend" }, { id := "backend", title := "Backend" }]

/-- A concrete items list. -/
def demoItems : List KanbanItem := [itemA, itemB, itemDangling]

/-- Hook that always denies, used to compare against a throwing hook. -/
def denyHook : BeforeDropEvent → Except String Bool := fun _ => .ok false

/-- Hook that always throws. -/
def throwingHook : BeforeDropEvent → Except String Bool := fun _ => .error "boom"

/-- A single concrete column. -/
def soloColumn : List KanbanColumn := [{ id := "a", title := "A" }]

/-- Three concrete columns. -/
def threeColumns : List KanbanColumn :=
  [{ id := "a", title := "A" }, { id := "b", title := "B" }, { id := "c", title := "C" }]

/-! ## Theorems -/

/-- Helper: flipping membership twice restores the set. -/
theorem toggle_set_twice (id : String) (s : Finset String) :
    (if id ∈ (if id ∈ s then s.erase id else insert id s) then
      (if id ∈ s then s.erase id else insert id s).erase id
    else insert id (if id ∈ s then s.erase id else insert id s)) = s := by
  by_cases h : id ∈ s
  · simp only [h, if_true, Finset.not_mem_erase, if_false]
    exact Finset.insert_erase h
  · simp only [h, if_false, Finset.mem_insert_self, if_true]
    exact Finset.erase_insert h

/-- C8: `toggleColumn(id)` applied twice restores the original collapsed-set
membership, and likewise `toggleSwimLane(id)`: both toggles are involutive. -/
theorem toggle_involutive (id : String) (s : Finset String) :
    toggleColumn id (toggleColumn id s) = s ∧
    toggleSwimLane id (toggleSwimLane id s) = s := by
  constructor
  · simpa only [toggleColumn] using toggle_set_twice id s
  · simpa only [toggleSwimLane] using toggle_set_twice id s

/-- C10: `getItemsForCell` returns the order-preserving subsequence of the
input `items` selected by the cell predicate: the result is a sublist of
`items` (so matching items keep their relative input order), and an item
belongs to the result exactly when it belongs to `items` and its `column`
and `swimLane` fields match the cell. -/
theorem getItemsForCell_order_preserving (items : List KanbanItem)
    (columnId swimLaneId : String) :
    (getItemsForCell items columnId swimLaneId).Sublist items ∧
    ∀ it, it ∈ getItemsForCell items columnId swimLaneId ↔
      (it ∈ items ∧ it.column = columnId ∧ it.swimLane = swimLaneId) := by
  constructor
  · exact List.filter_sublist items
  · intro it
    simp [getItemsForCell, List.mem_filter, and_assoc]

/-- C1: partition law.  For any items and any columns/swim lanes with unique
ids, an item lies in some cell `(c.id, l.id)` with `c ∈ columns`,
`l ∈ swimLanes` exactly when its `column` field references an existing
column and its `swimLane` field an existing swim lane (so items with
dangling foreign keys lie in no cell); and no item is in the cells of two
distinct `(columnId, swimLaneId)` pairs. -/
theorem partition_law (items : List KanbanItem) (columns : List KanbanColumn)
    (swimLanes : List KanbanSwimLane)
    (hcols : (columns.map KanbanColumn.id).Nodup)
    (hlanes : (swimLanes.map KanbanSwimLane.id).Nodup) :
    (∀ it ∈ items,
      ((∃ c ∈ columns, c.id = it.column) ∧ (∃ l ∈ swimLanes, l.id = it.swimLane)) ↔
        ∃ c ∈ columns, ∃ l ∈ swimLanes, it ∈ getItemsForCell items c.id l.id) ∧
    (∀ it (c₁ l₁ c₂ l₂ : String),
      it ∈ getItemsForCell items c₁ l₁ → it ∈ getItemsForCell items c₂ l₂ →
        c₁ = c₂ ∧ l₁ = l₂) := by
  constructor
  · intro it hit
    constructor
    · rintro ⟨⟨c, hc, hcid⟩, ⟨l, hl, hlid⟩⟩
      refine ⟨c, hc, l, hl, ?_⟩
      simp [getItemsForCell, List.mem_filter, hit, hcid, hlid]
    · rintro ⟨c, hc, l, hl, hmem⟩
      simp only [getItemsForCell, List.mem_filter, Bool.and_eq_true, beq_iff_eq] at hmem
      exact ⟨⟨c, hc, hmem.2.1.symm⟩, ⟨l, hl, hmem.2.2.symm⟩⟩
  · intro it c₁ l₁ c₂ l₂ h₁ h₂
    simp only [getItemsForCell, List.mem_filter, Bool.and_eq_true, beq_iff_eq] at h₁ h₂
    exact ⟨h₁.2.1.symm.trans h₂.2.1, h₁.2.2.symm.trans h₂.2.2⟩

/-- Witness for C1 at the concrete fixture: the id lists are duplicate-free
and the partition law holds for the demo board. -/
theorem partition_law_witness :
    (demoColumns.map KanbanColumn.id).Nodup ∧
    (demoSwimLanes.map KanbanSwimLane.id).Nodup ∧
    ((∀ it ∈ demoItems,
      ((∃ c ∈ demoColumns, c.id = it.column) ∧
        (∃ l ∈ demoSwimLanes, l.id = it.swimLane)) ↔
        ∃ c ∈ demoColumns, ∃ l ∈ demoSwimLanes,
          it ∈ getItemsForCell demoItems c.id l.id) ∧
    (∀ it (c₁ l₁ c₂ l₂ : String),
      it ∈ getItemsForCell demoItems c₁ l₁ → it ∈ getItemsForCell demoItems c₂ l₂ →
        c₁ = c₂ ∧ l₁ = l₂)) :=
  ⟨by decide, by decide,
    partition_law demoItems demoColumns demoSwimLanes (by decide) (by decide)⟩

/-- C2: dropping an item onto its own cell is a no-op.  When the resolved
target cell equals the dragged item's current `(column, swimLane)`, the
handler invokes none of `onBeforeDrop`, `onDrop`, `onItemMove` and leaves
the board state unchanged. -/
theorem drop_same_cell_noop (st : BoardState) (items : List KanbanItem)
    (onBeforeDrop : Option (BeforeDropEvent → Except String Bool))
    (onDropSupplied onItemMoveSupplied : Bool)
    (activeId : String) (ov : OverData) (it : KanbanItem)
    (hfind : findItemById items activeId = some it)
    (hcol : ov.column = some it.column)
    (hlane : ov.swimLane = some it.swimLane) :
    handleDragEndStep st items onBeforeDrop onDropSupplied onItemMoveSupplied
      activeId (some ov) = .ok (st, {}) := by
  simp [handleDragEndStep, handleDragEnd, hfind, hcol, hlane, strTruthy, Except.map]

/-- Witness for C2: a concrete drag of `itemA` dropped back onto its own
cell `(todo, frontend)` invokes nothing and keeps the state. -/
theorem drop_same_cell_noop_witness :
    findItemById [itemA] "a1" = some itemA ∧
    (OverData.mk (some "todo") (some "frontend")).column = some itemA.column ∧
    (OverData.mk (some "todo") (some "frontend")).swimLane = some itemA.swimLane ∧
    handleDragEndStep {} [itemA] none true true "a1"
      (some (OverData.mk (some "todo") (some "frontend"))) = .ok ({}, {}) :=
  ⟨by decide, by decide, by decide,
    drop_same_cell_noop {} [itemA] none true true "a1"
      (OverData.mk (some "todo") (some "frontend")) itemA
      (by decide) (by decide) (by decide)⟩

/-- C3: default allow.  With no `onBeforeDrop` supplied and a resolvable
target cell different from the source cell, `onDrop` is invoked exactly
once, with the item id, the item snapshot and the full source/target
identifiers, and `onItemMove` is invoked exactly once with
`(itemId, targetColumn, targetSwimLane)`; the state is unchanged. -/
theorem default_allow (st : BoardState) (items : List KanbanItem)
    (activeId tc tl : String) (ov : OverData) (it : KanbanItem)
    (hfind : findItemById items activeId = some it)
    (hcol : ov.column = some tc) (hlane : ov.swimLane = some tl)
    (htc : tc ≠ "") (htl : tl ≠ "")
    (hdiff : it.column ≠ tc ∨ it.swimLane ≠ tl) :
    handleDragEndStep st items none true true activeId (some ov) =
      .ok (st,
        { beforeDropEvents := []
          dropEvents := [⟨it.id, it.column, it.swimLane, tc, tl, it⟩]
          itemMoveEvents := [(it.id, tc, tl)] }) := by
  have hc : (tc == "") = false := beq_eq_false_iff_ne.mpr htc
  have hl : (tl == "") = false := beq_eq_false_iff_ne.mpr htl
  have hd : (it.column == tc && it.swimLane == tl) = false := by
    cases hdiff with
    | inl h => simp [beq_eq_false_iff_ne.mpr h]
    | inr h => simp [beq_eq_false_iff_ne.mpr h]
  simp [handleDragEndStep, handleDragEnd, hfind, hcol, hlane, strTruthy, hc, hl, hd,
    Except.map]

/-- Witness for C3: the concrete drag of `itemA` from `(todo, frontend)` to
`(done, backend)` with no hook fires the full drop record and the legacy
move signal, once each. -/
theorem default_allow_witness :
    findItemById [itemA] "a1" = some itemA ∧
    ("done" : String) ≠ "" ∧ ("backend" : String) ≠ "" ∧
    (itemA.column ≠ "done" ∨ itemA.swimLane ≠ "backend") ∧
    handleDragEndStep {} [itemA] none true true "a1"
      (some (OverData.mk (some "done") (some "backend"))) =
      .ok ({},
        { beforeDropEvents := []
          dropEvents := [⟨"a1", "todo", "frontend", "done", "backend", itemA⟩]
          itemMoveEvents := [("a1", "done", "backend")] }) :=
  ⟨by decide, by decide, by decide, by decide,
    default_allow {} [itemA] "a1" "done" "backend"
      (OverData.mk (some "done") (some "backend")) itemA
      (by decide) (by decide) (by decide) (by decide) (by decide)
      (Or.inl (by decide))⟩

/-- C4: veto.  With a supplied `onBeforeDrop` returning `false` on the built
record, the hook is invoked once and neither `onDrop` nor `onItemMove` is
invoked; the state is unchanged and the dragged item is still in its source
cell. -/
theorem veto_blocks_drop (st : BoardState) (items : List KanbanItem)
    (hook : BeforeDropEvent → Except String Bool)
    (onDropSupplied onItemMoveSupplied : Bool)
    (activeId tc tl : String) (ov : OverData) (it : KanbanItem)
    (hfind : findItemById items activeId = some it)
    (hcol : ov.column = some tc) (hlane : ov.swimLane = some tl)
    (htc : tc ≠ "") (htl : tl ≠ "")
    (hdiff : it.column ≠ tc ∨ it.swimLane ≠ tl)
    (hveto : hook ⟨it.id, it.column, it.swimLane, tc, tl, true⟩ = .ok false) :
    handleDragEndStep st items (some hook) onDropSupplied onItemMoveSupplied
      activeId (some ov) =
      .ok (st, { beforeDropEvents := [⟨it.id, it.column, it.swimLane, tc, tl, true⟩] }) ∧
    it ∈ getItemsForCell items it.column it.swimLane := by
  have hc : (tc == "") = false := beq_eq_false_iff_ne.mpr htc
  have hl : (tl == "") = false := beq_eq_false_iff_ne.mpr htl
  have hd : (it.column == tc && it.swimLane == tl) = false := by
    cases hdiff with
    | inl h => simp [beq_eq_false_iff_ne.mpr h]
    | inr h => simp [beq_eq_false_iff_ne.mpr h]
  constructor
  · simp [handleDragEndStep, handleDragEnd, hfind, hcol, hlane, strTruthy, hc, hl, hd,
      hveto, Except.map]
  · have hmem : it ∈ items := by
      have := List.find?_some hfind
      exact List.mem_of_find?_eq_some hfind
    simp [getItemsForCell, List.mem_filter, hmem]

/-- Witness for C4: the concrete vetoed drag of `itemA` to `(done, backend)`
invokes only the hook and `itemA` stays in `(todo, frontend)`. -/
theorem veto_blocks_drop_witness :
    findItemById [itemA] "a1" = some itemA ∧
    denyHook ⟨"a1", "todo", "frontend", "done", "backend", true⟩ = .ok false ∧
    (handleDragEndStep {} [itemA] (some denyHook) true true "a1"
      (some (OverData.mk (some "done") (some "backend"))) =
      .ok ({}, { beforeDropEvents := [⟨"a1", "todo", "frontend", "done", "backend", true⟩] }) ∧
    itemA ∈ getItemsForCell [itemA] itemA.column itemA.swimLane) :=
  ⟨by decide, rfl,
    veto_blocks_drop {} [itemA] denyHook true true "a1" "done" "backend"
      (OverData.mk (some "done") (some "backend")) itemA
      (by decide) (by decide) (by decide) (by decide) (by decide)
      (Or.inl (by decide)) rfl⟩

/-- C5 counterexample: a throwing `onBeforeDrop` is *not* treated
identically to an explicit deny.  On the same concrete drag, the denying
hook makes the handler return normally having invoked only the hook, while
the throwing hook makes the handler terminate with the propagated
exception (the source has no try/catch), a different outcome that the
hosting event dispatch must absorb. -/
theorem hook_throw_not_like_deny :
    handleDragEnd [itemA] (some throwingHook) true true "a1"
      (some (OverData.mk (some "done") (some "backend"))) = .error "boom" ∧
    handleDragEnd [itemA] (some denyHook) true true "a1"
      (some (OverData.mk (some "done") (some "backend"))) =
      .ok { beforeDropEvents := [⟨"a1", "todo", "frontend", "done", "backend", true⟩] } ∧
    (Except.error "boom" : Except String DragEndResult) ≠
      .ok { beforeDropEvents := [⟨"a1", "todo", "frontend", "done", "backend", true⟩] } :=
  ⟨rfl, rfl, by simp⟩

/-- C5 (amended): a throwing `onBeforeDrop` hook does make the drop not
happen — no `onDrop`/`onItemMove` invocation and no state change can
result, since the handler terminates exceptionally before reaching them —
but the exception propagates out of `handleDragEnd` uncaught instead of
being absorbed like an explicit deny. -/
theorem hook_throw_propagates (st : BoardState) (items : List KanbanItem)
    (hook : BeforeDropEvent → Except String Bool)
    (onDropSupplied onItemMoveSupplied : Bool)
    (activeId tc tl ex : String) (ov : OverData) (it : KanbanItem)
    (hfind : findItemById items activeId = some it)
    (hcol : ov.column = some tc) (hlane : ov.swimLane = some tl)
    (htc : tc ≠ "") (htl : tl ≠ "")
    (hdiff : it.column ≠ tc ∨ it.swimLane ≠ tl)
    (hthrow : hook ⟨it.id, it.column, it.swimLane, tc, tl, true⟩ = .error ex) :
    handleDragEndStep st items (some hook) onDropSupplied onItemMoveSupplied
      activeId (some ov) = .error ex := by
  have hc : (tc == "") = false := beq_eq_false_iff_ne.mpr htc
  have hl : (tl == "") = false := beq_eq_false_iff_ne.mpr htl
  have hd : (it.column == tc && it.swimLane == tl) = false := by
    cases hdiff with
    | inl h => simp [beq_eq_false_iff_ne.mpr h]
    | inr h => simp [beq_eq_false_iff_ne.mpr h]
  simp [handleDragEndStep, handleDragEnd, hfind, hcol, hlane, strTruthy, hc, hl, hd,
    hthrow, Except.map]

/-- Witness for the amended C5 at the concrete throwing hook. -/
theorem hook_throw_propagates_witness :
    findItemById [itemA] "a1" = some itemA ∧
    throwingHook ⟨"a1", "todo", "frontend", "done", "backend", true⟩ = .error "boom" ∧
    handleDragEndStep {} [itemA] (some throwingHook) true true "a1"
      (some (OverData.mk (some "done") (some "backend"))) = .error "boom" :=
  ⟨by decide, rfl,
    hook_throw_propagates {} [itemA] throwingHook true true "a1" "done" "backend"
      "boom" (OverData.mk (some "done") (some "backend")) itemA
      (by decide) (by decide) (by decide) (by decide) (by decide)
      (Or.inl (by decide)) rfl⟩

/-- Helper: a boolean filter and its complement split a list's length. -/
theorem length_filter_add_length_filter_not {α : Type} (p : α → Bool) (l : List α) :
    (l.filter p).length + (l.filter (fun a => !(p a))).length = l.length := by
  induction l with
  | nil => rfl
  | cons a t ih => cases h : p a <;> simp [List.filter_cons, h] <;> omega

/-- Helper: summing a two-valued function over a column list counts each
branch. -/
theorem sum_map_ite_mem (A B : ℚ) (S : Finset String) (cs : List KanbanColumn) :
    (cs.map (fun c => if c.id ∈ S then A else B)).sum =
      A * ((cs.filter (fun c => decide (c.id ∈ S))).length : ℚ) +
        B * ((cs.filter (fun c => !(decide (c.id ∈ S)))).length : ℚ) := by
  induction cs with
  | nil => simp
  | cons c t ih =>
    by_cases h : c.id ∈ S <;> simp [List.filter_cons, h, ih] <;> ring

/-- C6 (amended): width conservation holds whenever at least one column is
expanded: the rendered column widths (collapsed columns at the fixed 64px,
expanded columns at the computed share) sum exactly to the width available
to the columns, `totalWidth − swimLaneWidth`.  (With every column
collapsed the sum is `columns.length × 64` instead — see the
counterexample.) -/
theorem width_conservation (totalWidth : ℚ) (columns : List KanbanColumn)
    (collapsed : Finset String)
    (hexp : 0 < (expandedColumns columns collapsed).length) :
    totalColumnsWidth totalWidth columns collapsed = totalWidth - swimLaneWidth := by
  have hsum := sum_map_ite_mem collapsedColumnWidth
    (expandedColumnWidth totalWidth columns collapsed) collapsed columns
  have hlen := length_filter_add_length_filter_not
    (fun c : KanbanColumn => decide (c.id ∈ collapsed)) columns
  have hcount : (collapsedColumnCount columns collapsed : ℚ) =
      ((columns.filter (fun c => decide (c.id ∈ collapsed))).length : ℚ) := by
    have : collapsedColumnCount columns collapsed =
        (columns.filter (fun c => decide (c.id ∈ collapsed))).length := by
      unfold collapsedColumnCount expandedColumns
      unfold expandedColumns at hexp
      omega
    rw [this]
  have hne : ((expandedColumns columns collapsed).length : ℚ) ≠ 0 := by
    exact_mod_cast Nat.pos_iff_ne_zero.mp hexp
  have hew : expandedColumnWidth totalWidth columns collapsed *
      ((expandedColumns columns collapsed).length : ℚ) =
      availableWidth totalWidth columns collapsed := by
    unfold expandedColumnWidth
    rw [if_pos hexp, div_mul_cancel₀ _ hne]
  have htot : totalColumnsWidth totalWidth columns collapsed =
      (columns.map (fun c => if c.id ∈ collapsed then collapsedColumnWidth
        else expandedColumnWidth totalWidth columns collapsed)).sum := rfl
  rw [htot, hsum]
  have hexp_len : ((columns.filter
      (fun c => !(decide (c.id ∈ collapsed)))).length : ℚ) =
      ((expandedColumns columns collapsed).length : ℚ) := by
    unfold expandedColumns
    norm_num
  rw [hexp_len, ← hcount, hew]
  unfold availableWidth
  ring

/-- C6 counterexample: with the single column collapsed, the rendered width
sum is the fixed 64px, not the available width (here 100px): the claim
fails for the all-collapsed combination. -/
theorem width_conservation_counterexample :
    totalColumnsWidth 300 soloColumn {"a"} ≠ 300 - swimLaneWidth := by
  norm_num [totalColumnsWidth, getColumnWidth, soloColumn, swimLaneWidth,
    collapsedColumnWidth]

/-- Witness for the amended C6: on the demo board with `todo` collapsed
and `done` expanded the widths sum to the available 800px. -/
theorem width_conservation_witness :
    0 < (expandedColumns demoColumns {"todo"}).length ∧
    totalColumnsWidth 1000 demoColumns {"todo"} = 1000 - swimLaneWidth :=
  ⟨by decide, width_conservation 1000 demoColumns {"todo"} (by decide)⟩

/-- C7 (amended): the computed expanded-column width is clamped to zero
when the expanded-column count is zero; but when at least one column is
expanded it is the unclamped quotient, which is negative exactly when the
collapsed columns' fixed widths exceed the width available to the columns
— the code applies no floor at zero in that case (see the
counterexample). -/
theorem expanded_width_clamp (totalWidth : ℚ) (columns : List KanbanColumn)
    (collapsed : Finset String) :
    ((expandedColumns columns collapsed).length = 0 →
      expandedColumnWidth totalWidth columns collapsed = 0) ∧
    (0 < (expandedColumns columns collapsed).length →
      (expandedColumnWidth totalWidth columns collapsed < 0 ↔
        totalWidth - swimLaneWidth <
          (collapsedColumnCount columns collapsed : ℚ) * collapsedColumnWidth)) := by
  constructor
  · intro h
    unfold expandedColumnWidth
    rw [if_neg]
    omega
  · intro h
    have he : (0 : ℚ) < ((expandedColumns columns collapsed).length : ℚ) := by
      exact_mod_cast h
    unfold expandedColumnWidth
    rw [if_pos h, div_neg_iff]
    have hb : ¬ (((expandedColumns columns collapsed).length : ℚ) < 0) :=
      not_lt.mpr he.le
    unfold availableWidth
    constructor
    · rintro (⟨-, h2⟩ | ⟨h1, -⟩)
      · exact absurd h2 hb
      · linarith
    · intro h1
      exact Or.inr ⟨by linarith, he⟩

/-- C7 counterexample: with two of three columns collapsed and only 100px
available to the columns, the computed expanded width is −28px: the code
does not floor it at zero. -/
theorem expanded_width_negative_counterexample :
    expandedColumnWidth 300 threeColumns {"a", "b"} < 0 := by
  have h : (expandedColumns threeColumns {"a", "b"}).length = 1 := by decide
  have hc : collapsedColumnCount threeColumns {"a", "b"} = 2 := by decide
  unfold expandedColumnWidth availableWidth
  rw [h, hc]
  norm_num [swimLaneWidth, collapsedColumnWidth]

/-- Witness for the amended C7 at concrete boards: the all-collapsed single
column clamps to zero, and the three-column board with two collapsed
witnesses the negativity criterion. -/
theorem expanded_width_clamp_witness :
    ((expandedColumns soloColumn {"a"}).length = 0 ∧
      expandedColumnWidth 300 soloColumn {"a"} = 0) ∧
    (0 < (expandedColumns threeColumns {"a", "b"}).length ∧
      (expandedColumnWidth 300 threeColumns {"a", "b"} < 0 ↔
        300 - swimLaneWidth <
          (collapsedColumnCount threeColumns {"a", "b"} : ℚ) * collapsedColumnWidth)) :=
  ⟨⟨by decide, (expanded_width_clamp 300 soloColumn {"a"}).1 (by decide)⟩,
    ⟨by decide, (expanded_width_clamp 300 threeColumns {"a", "b"}).2 (by decide)⟩⟩

/-- C9 counterexample: the bound `⌈H/E⌉ + 2K` on the number of
materialized items can be exceeded when `E` divides `H`: with two items of
size 1, a viewport of height 1, no overscan and `scrollTop = 0`, both item
offsets (0 and 1) intersect the window `[0, 1]`, so 2 items are
materialized while the claimed bound is 1. -/
theorem virtualization_bound_counterexample :
    ceilDiv 1 1 + 2 * 0 < (materializedIndices 2 1 1 0 0).card := by
  decide

/-- C9 (amended): the virtualized window materializes at most
`⌈H/E⌉ + 2K + 1` items, independent of `N` (one more than the claimed
bound, reached only when `E` divides `H` at aligned scroll positions);
with `scrollTop = 0` and a nonempty list the window includes index 0; the
reported scrollable extent is `N·E`; and with `N = 0` nothing is
materialized. -/
theorem virtualization_window (N H E K scrollTop : ℕ) (hE : 0 < E) :
    (materializedIndices N H E K scrollTop).card ≤ ceilDiv H E + 2 * K + 1 ∧
    (0 < N → 0 ∈ materializedIndices N H E K 0) ∧
    totalScrollSize N E = N * E ∧
    (N = 0 → materializedIndices N H E K scrollTop = ∅) := by
  refine ⟨?_, ?_, rfl, ?_⟩
  · by_cases hS : (materializedIndices N H E K scrollTop).Nonempty
    · have hmem_m := (materializedIndices N H E K scrollTop).min'_mem hS
      have hmem_M := (materializedIndices N H E K scrollTop).max'_mem hS
      set m := (materializedIndices N H E K scrollTop).min' hS with hm
      set M := (materializedIndices N H E K scrollTop).max' hS with hM
      have hmM : m ≤ M := Finset.min'_le _ _ hmem_M
      have hsub : materializedIndices N H E K scrollTop ⊆ Finset.Icc m M := by
        intro x hx
        exact Finset.mem_Icc.mpr ⟨Finset.min'_le _ _ hx, Finset.le_max' _ _ hx⟩
      have hcard : (materializedIndices N H E K scrollTop).card ≤ M + 1 - m := by
        simpa [Nat.card_Icc] using Finset.card_le_card hsub
      have h1 : (scrollTop : ℤ) - (K : ℤ) * (E : ℤ) ≤ (m : ℤ) * (E : ℤ) := by
        have := (Finset.mem_filter.mp hmem_m).2
        exact this.1
      have h2 : (M : ℤ) * (E : ℤ) ≤ (scrollTop : ℤ) + (H : ℤ) + (K : ℤ) * (E : ℤ) := by
        have := (Finset.mem_filter.mp hmem_M).2
        exact this.2
      have hdiff : (M - m) * E ≤ H + 2 * K * E := by
        zify [hmM]
        nlinarith [h1, h2]
      have hdivb : M - m ≤ H / E + 2 * K := by
        have h3 : (H + 2 * K * E) / E = H / E + 2 * K := by
          rw [show H + 2 * K * E = H + E * (2 * K) by ring,
            Nat.add_mul_div_left _ _ hE]
        rw [← h3]
        exact (Nat.le_div_iff_mul_le hE).mpr hdiff
      have hceil : H / E ≤ ceilDiv H E := by
        unfold ceilDiv
        exact Nat.div_le_div_right (by omega)
      omega
    · rw [Finset.not_nonempty_iff_eq_empty.mp hS]
      simp
  · intro hN
    unfold materializedIndices
    refine Finset.mem_filter.mpr ⟨Finset.mem_range.mpr hN, ?_, ?_⟩
    · have : (0 : ℤ) ≤ (K : ℤ) * (E : ℤ) := by positivity
      simp
      linarith
    · have hh : (0 : ℤ) ≤ (H : ℤ) := Int.natCast_nonneg H
      have : (0 : ℤ) ≤ (K : ℤ) * (E : ℤ) := by positivity
      simp
      linarith
  · intro h
    subst h
    unfold materializedIndices
    simp

/-- Witness for the amended C9 at the source's parameters (item estimate
120, overscan 5, the 400px cell viewport, a 1000-item cell): the
materialized count is bounded by `⌈400/120⌉ + 2·5 + 1`, index 0 is
materialized at `scrollTop = 0`, the reported extent is `1000·120`, and an
empty cell materializes nothing. -/
theorem virtualization_window_witness :
    0 < estimateSize ∧
    (materializedIndices 1000 400 estimateSize overscan 0).card ≤
      ceilDiv 400 estimateSize + 2 * overscan + 1 ∧
    0 ∈ materializedIndices 1000 400 estimateSize overscan 0 ∧
    totalScrollSize 1000 estimateSize = 1000 * estimateSize ∧
    materializedIndices 0 400 estimateSize overscan 7 = ∅ :=
  ⟨by decide,
    (virtualization_window 1000 400 estimateSize overscan 0 (by decide)).1,
    (virtualization_window 1000 400 estimateSize overscan 0 (by decide)).2.1
      (by decide),
    (virtualization_window 1000 400 estimateSize overscan 0 (by decide)).2.2.1,
    (virtualization_window 0 400 estimateSize overscan 7 (by decide)).2.2.2 rfl⟩

end LaneFlow
